import Mathlib

set_option autoImplicit false

namespace OTP

/-! Shallow embedding of the One-Time-Pad repository (otp_enc_d.c, otp_dec.c,
keygen.c): the cipher engine, the reliable-transfer loop, the file scanner and
the session control flow, together with proofs about the claims of the
specification. -/

/-- The alphabet Σ of the system: the space character and the capital letters,
27 symbols in total. -/
def sigmaChars : List Char := ' ' :: (List.range 26).map (fun i => Char.ofNat (65 + i))

/-- One iteration of the loop body of `encrypt` (otp_enc_d.c, lines 226-248).
The space-to-at conversion writes back into the plaintext and key cells
(`plain[i] = '@'`, `key[i] = '@'`), the cipher cell is computed from the
converted characters with C truncated remainder.  The triple is
(plaintext cell after the iteration, key cell after, ciphertext cell). -/
def encryptStep (p k : Char) : Char × Char × Char :=
  let p1 := if p = ' ' then '@' else p
  let k1 := if k = ' ' then '@' else k
  let cPlain : Int := (p1.toNat : Int) - 64
  let cKey : Int := (k1.toNat : Int) - 64
  let cCipher : Int := Int.tmod (cPlain + cKey) 27
  let c0 : Char := Char.ofNat (cCipher + 64).toNat
  (p1, k1, if c0 = '@' then ' ' else c0)

/-- The loop of `encrypt` (otp_enc_d.c, lines 226-248) over the plaintext and
key buffers; the caller passes `len` equal to the plaintext length, so the
loop consumes the whole first buffer and the same-length head of the second.
Returns the final contents of the plaintext buffer, of the key buffer, and
the ciphertext buffer. -/
def encryptLoop : List Char → List Char → List Char × List Char × List Char
  | p :: ps, k :: ks =>
    let s := encryptStep p k
    let r := encryptLoop ps ks
    (s.1 :: r.1, s.2.1 :: r.2.1, s.2.2 :: r.2.2)
  | ps, ks => (ps, ks, [])

/-- `encrypt` (otp_enc_d.c, lines 221-249): the ciphertext written into the
output buffer. -/
def encrypt (plain key : List Char) : List Char := (encryptLoop plain key).2.2

/-- The contents of the plaintext buffer after a call to `encrypt`. -/
def plainAfter (plain key : List Char) : List Char := (encryptLoop plain key).1

/-- The contents of the key buffer after a call to `encrypt`. -/
def keyAfter (plain key : List Char) : List Char := (encryptLoop plain key).2.1

/-- `encrypt` on strings. -/
def encryptStr (plain key : String) : String := String.mk (encrypt plain.data key.data)

/-- Following the specification's words (§3): the bijection sending the
letters 'A'..'Z' in order to 0..25 and the space to 26.  Stated only to be
compared with what `encrypt` actually computes. -/
def specIdx (c : Char) : ℕ := if c = ' ' then 26 else c.toNat - 65

/-- Following the specification's words (§3): the inverse of `specIdx`. -/
def specSym (n : ℕ) : Char := if n = 26 then ' ' else Char.ofNat (n + 65)

/-- The bijection Σ ↔ 0..26 that `encrypt` actually realises: the character
value minus 64 after the space-to-at conversion, i.e. space to 0 and
'A'..'Z' to 1..26. -/
def codeIdx (c : Char) : ℕ := if c = ' ' then 0 else c.toNat - 64

/-- The inverse of `codeIdx`. -/
def codeSym (n : ℕ) : Char := if n = 0 then ' ' else Char.ofNat (n + 64)

/-- The space-to-at conversion that `encrypt` applies in place to its input
buffers (otp_enc_d.c, lines 229-230). -/
def spaceToAt (c : Char) : Char := if c = ' ' then '@' else c

example : encryptStr "HELLO" "WORLD" = "DTCXS" := by decide

example : (encrypt ['A'] ['A'])[0]? = some 'B' := by decide

/-- The loop of `sendrecv` (otp_enc_d.c lines 191-211, otp_dec.c lines
223-245), indexed by fuel.  `ops i` is the value returned by the i-th
underlying `send`/`recv` call; `total` and `i` are the accumulated count and
the index of the next call.  `some t` means the loop has exited and the
function returns `t`; `none` means the loop is still running after `fuel`
iterations (the buffer-clearing `memset` on receive touches no control
state and is not modelled). -/
def sendrecvLoop (ops : ℕ → Int) (len : Int) : ℕ → Int → ℕ → Option Int
  | 0, _, _ => none
  | fuel + 1, total, i =>
    if total < len then
      if ops i = -1 then some total
      else sendrecvLoop ops len fuel (total + ops i) (i + 1)
    else some total

/-- `sendrecv` run from its initial state (`total = 0`, first operation),
observed after at most `fuel` loop iterations. -/
def sendrecv (ops : ℕ → Int) (len : Int) (fuel : ℕ) : Option Int :=
  sendrecvLoop ops len fuel 0 0

/-- The sum of the first `n` operation results, i.e. the value of `total`
when the (n+1)-st `send`/`recv` call is issued (provided no earlier call
returned -1). -/
def opsSum (ops : ℕ → Int) : ℕ → Int
  | 0 => 0
  | n + 1 => opsSum ops n + ops n

/-- The character-validity test of `scanfile` (otp_dec.c, line 191), exactly
as written in the source: `c == ' ' || (c >= 'A' || c <= 'Z')`. -/
def scanfileCheck (c : Char) : Bool :=
  (c == ' ') || (decide ('A' ≤ c) || decide (c ≤ 'Z'))

/-- The scanning loop of `scanfile` (otp_dec.c, lines 188-193) over the file
content up to the terminating newline: `some n` is the returned length,
`none` models the bad-characters diagnostic followed by `exit(1)`. -/
def scanfileChars : List Char → Option ℕ
  | [] => some 0
  | c :: cs => if scanfileCheck c then (scanfileChars cs).map (· + 1) else none

/-- Direction of a frame relative to the local process. -/
inductive Dir where
  | sent
  | received
deriving DecidableEq

/-- The admission computation of the encryption service (otp_enc_d.c, lines
108-110): `strcmp(id, "otp_enc")` decides between "PASS" and "FAIL". -/
def serverAuth (id : String) : String := if id = "otp_enc" then "PASS" else "FAIL"

/-- The frames exchanged by the child process of otp_enc_d.c (lines 102-166)
in a session whose transfers complete: the received identity token, the sent
admission result and, only when the admission result is "PASS", the four
received payload frames followed by the sent ciphertext. -/
def childFrames (id textLenBuf text keyLenBuf key : String) : List (Dir × String) :=
  let auth := serverAuth id
  [(Dir.received, id), (Dir.sent, auth)] ++
    (if auth = "PASS" then
      [(Dir.received, textLenBuf), (Dir.received, text),
       (Dir.received, keyLenBuf), (Dir.received, key),
       (Dir.sent, encryptStr text key)]
    else [])

/-- The frames the client otp_dec.c exchanges after evaluating the received
admission result (lines 119-163): on anything other than "PASS" it reports
the error and exits with status 2, sending nothing further; on "PASS" it
sends the two length frames and the two payloads and receives the result. -/
def clientAfterAuth (auth textLenBuf ciphertext keyLenBuf key result : String) :
    List (Dir × String) :=
  if auth = "PASS" then
    [(Dir.sent, textLenBuf), (Dir.sent, ciphertext),
     (Dir.sent, keyLenBuf), (Dir.sent, key), (Dir.received, result)]
  else []

/-- The actions of the client main of otp_dec.c, in program order. -/
inductive CAct where
  | scannedText
  | exitEmptyText
  | scannedKey
  | exitEmptyKey
  | exitKeyShort
  | readText
  | readKey
  | resolvedHost
  | openedSocket
  | connected
  | session
deriving DecidableEq

/-- Control flow of otp_dec.c main, lines 67-104, after argument and port
validation succeed, given the two lengths returned by `scanfile`: the ordered
list of actions the process takes (`socket()` is called at line 96,
`connect()` at line 102, strictly after the three validation exits). -/
def clientMainActions (textLen keyLen : Int) : List CAct :=
  if textLen < 1 then [CAct.scannedText, CAct.exitEmptyText]
  else if keyLen < 1 then [CAct.scannedText, CAct.scannedKey, CAct.exitEmptyKey]
  else if keyLen < textLen then [CAct.scannedText, CAct.scannedKey, CAct.exitKeyShort]
  else [CAct.scannedText, CAct.scannedKey, CAct.readText, CAct.readKey,
        CAct.resolvedHost, CAct.openedSocket, CAct.connected, CAct.session]

/-- Observable events of the post-admission phases, for the partial-transfer
claims. -/
inductive Ev where
  | transferred (want got : Int)
  | diag
  | encrypted
  | exitAbort
  | closedConn
  | printedResult
deriving DecidableEq

/-- The uniform call-site pattern around every `sendrecv` call
(`if ((chars = sendrecv(...)) != want) fprintf(stderr, ...)`): the transfer
happens, then a diagnostic is written exactly when the moved count differs
from the requested one, and control falls through in either case. -/
def callSiteEvents (want got : Int) : List Ev :=
  Ev.transferred want got :: (if got ≠ want then [Ev.diag] else [])

/-- The payload phase of the otp_enc_d.c child after a "PASS" admission
(lines 119-166): five transfers whose actually-moved counts are r1..r5, the
encryption, and the closing of the connection.  No outcome of a transfer
diverts control. -/
def servicePayloadEvents (textLen keyLen r1 r2 r3 r4 r5 : Int) : List Ev :=
  callSiteEvents 9 r1 ++ callSiteEvents textLen r2 ++ callSiteEvents 9 r3 ++
    callSiteEvents keyLen r4 ++ [Ev.encrypted] ++ callSiteEvents textLen r5 ++
    [Ev.closedConn]

/-- The final phase of the otp_dec.c client (lines 155-165): receive the
result payload (moving `r` of `textLen` bytes), print it, close the
socket. -/
def clientResultEvents (textLen r : Int) : List Ev :=
  callSiteEvents textLen r ++ [Ev.printedResult, Ev.closedConn]

/-! ## Cipher engine -/

/-- Per-symbol characterisation of the loop body: on symbols of Σ the
ciphertext cell is the symbol whose `codeIdx` is the sum of the input
indices modulo 27. -/
theorem encryptStep_codeIdx :
    ∀ p ∈ sigmaChars, ∀ k ∈ sigmaChars,
      (encryptStep p k).2.2 = codeSym ((codeIdx p + codeIdx k) % 27) := by
  decide

/-- Positionwise characterisation of `encrypt` on Σ-symbol buffers. -/
theorem encrypt_get (p : List Char) :
    ∀ (k : List Char), (∀ c ∈ p, c ∈ sigmaChars) → (∀ c ∈ k, c ∈ sigmaChars) →
      ∀ (i : ℕ) (pc kc : Char), p[i]? = some pc → k[i]? = some kc →
        (encrypt p k)[i]? = some (codeSym ((codeIdx pc + codeIdx kc) % 27)) := by
  induction p with
  | nil =>
    intro k _ _ i pc kc hpc _
    cases i <;> simp at hpc
  | cons q ps ih =>
    intro k hp hk i pc kc hpc hkc
    cases k with
    | nil => cases i <;> simp at hkc
    | cons r ks =>
      cases i with
      | zero =>
        simp at hpc hkc
        subst hpc; subst hkc
        have hq : q ∈ sigmaChars := hp q (by simp)
        have hr : r ∈ sigmaChars := hk r (by simp)
        simp [encrypt, encryptLoop]
        exact encryptStep_codeIdx q hq r hr
      | succ n =>
        have hp2 : ∀ c ∈ ps, c ∈ sigmaChars := fun c hc => hp c (by simp [hc])
        have hk2 : ∀ c ∈ ks, c ∈ sigmaChars := fun c hc => hk c (by simp [hc])
        simp at hpc hkc
        have := ih ks hp2 hk2 n pc kc hpc hkc
        simpa [encrypt, encryptLoop] using this

/-- C1 (counterexample): at text "A" and key "A" the code's ciphertext symbol
is not the one demanded by the specification's bijection — the claimed
formula `(t + k) mod 27` with 'A'..'Z' at 0..25 and space at 26 would give
'A', but `encrypt` produces 'B'. -/
theorem claim1_counterexample :
    (encrypt ['A'] ['A'])[0]? ≠ some (specSym ((specIdx 'A' + specIdx 'A') % 27)) := by
  decide

/-- C1 (amended): for every text and key of equal length with all symbols in
Σ, the transform produces at position i the symbol whose index is
`(t + k) mod 27` where `t` and `k` are the indices of `text[i]` and `key[i]`
under the bijection that `encrypt` realises, which maps space to 0 and
'A'..'Z' to 1..26 — not the specification's bijection. -/
theorem claim1_formula (p k : List Char) (hp : ∀ c ∈ p, c ∈ sigmaChars)
    (hk : ∀ c ∈ k, c ∈ sigmaChars) (_hlen : p.length = k.length)
    (i : ℕ) (pc kc : Char) (hpc : p[i]? = some pc) (hkc : k[i]? = some kc) :
    (encrypt p k)[i]? = some (codeSym ((codeIdx pc + codeIdx kc) % 27)) :=
  encrypt_get p k hp hk i pc kc hpc hkc

/-- Witness for `claim1_formula` at text "HELLO", key "WORLD", position 0. -/
theorem claim1_witness :
    (∀ c ∈ ['H', 'E', 'L', 'L', 'O'], c ∈ sigmaChars) ∧
    (∀ c ∈ ['W', 'O', 'R', 'L', 'D'], c ∈ sigmaChars) ∧
    (['H', 'E', 'L', 'L', 'O'] : List Char).length = (['W', 'O', 'R', 'L', 'D'] : List Char).length ∧
    (['H', 'E', 'L', 'L', 'O'] : List Char)[0]? = some 'H' ∧
    (['W', 'O', 'R', 'L', 'D'] : List Char)[0]? = some 'W' ∧
    (encrypt ['H', 'E', 'L', 'L', 'O'] ['W', 'O', 'R', 'L', 'D'])[0]? =
      some (codeSym ((codeIdx 'H' + codeIdx 'W') % 27)) :=
  ⟨by decide, by decide, by decide, by decide, by decide,
    claim1_formula ['H', 'E', 'L', 'L', 'O'] ['W', 'O', 'R', 'L', 'D']
      (by decide) (by decide) (by decide) 0 'H' 'W' (by decide) (by decide)⟩

/-- C5 (counterexample): the transform does not send "HELLO" with key "WORLD"
to "CSBWR". -/
theorem claim5_counterexample : encryptStr "HELLO" "WORLD" ≠ "CSBWR" := by decide

/-- C5 (amended): encrypting "HELLO" with key "WORLD" yields "DTCXS". -/
theorem claim5_hello_world : encryptStr "HELLO" "WORLD" = "DTCXS" := by decide

/-- C6 (counterexample): `encrypt` does not leave its text input buffer
unchanged — on text " " and key "A" the text buffer ends up holding "@". -/
theorem claim6_counterexample : plainAfter [' '] ['A'] ≠ [' '] := by decide

/-- C6 (amended): `encrypt` mutates its input buffers in place — after the
call, on equal-length buffers, every space of the text and of the key has
been replaced by '@' and every other character is unchanged. -/
theorem claim6_mutation (p : List Char) :
    ∀ k : List Char, p.length = k.length →
      plainAfter p k = p.map spaceToAt ∧ keyAfter p k = k.map spaceToAt := by
  induction p with
  | nil =>
    intro k hlen
    have : k = [] := List.eq_nil_of_length_eq_zero hlen.symm
    subst this
    exact ⟨rfl, rfl⟩
  | cons q ps ih =>
    intro k hlen
    cases k with
    | nil => simp at hlen
    | cons r ks =>
      simp at hlen
      have h2 := ih ks hlen
      constructor
      · simp [plainAfter, encryptLoop, encryptStep, spaceToAt]
        exact h2.1
      · simp [keyAfter, encryptLoop, encryptStep, spaceToAt]
        exact h2.2

/-- Witness for `claim6_mutation` at text " A" and key "B ". -/
theorem claim6_witness :
    ([' ', 'A'] : List Char).length = (['B', ' '] : List Char).length ∧
    plainAfter [' ', 'A'] ['B', ' '] = [' ', 'A'].map spaceToAt ∧
    keyAfter [' ', 'A'] ['B', ' '] = ['B', ' '].map spaceToAt :=
  ⟨by decide,
    (claim6_mutation [' ', 'A'] ['B', ' '] (by decide)).1,
    (claim6_mutation [' ', 'A'] ['B', ' '] (by decide)).2⟩

/-- C7: for every fixed key symbol k of Σ, the 27 symbols of Σ encrypt to 27
pairwise-distinct outputs, all again in Σ — the single-symbol encryption map
is a bijection on Σ. -/
theorem claim7_permutation (k : Char) (hk : k ∈ sigmaChars) :
    (sigmaChars.map fun p => encrypt [p] [k]).Nodup ∧
    (∀ p ∈ sigmaChars, ∀ c ∈ encrypt [p] [k], c ∈ sigmaChars) := by
  revert k hk
  decide

/-- Witness for `claim7_permutation` at key symbol 'Q'. -/
theorem claim7_witness :
    'Q' ∈ sigmaChars ∧
    ((sigmaChars.map fun p => encrypt [p] ['Q']).Nodup ∧
      ∀ p ∈ sigmaChars, ∀ c ∈ encrypt [p] ['Q'], c ∈ sigmaChars) :=
  ⟨by decide, claim7_permutation 'Q' (by decide)⟩

/-! ## Reliable transfer -/

/-- On a connection whose operations all report 0 bytes moved (a peer that
performed an orderly close: `recv` returns 0 for ever), the loop never makes
progress: from a `total` of 0 it is still running after any number of
iterations. -/
theorem sendrecvLoop_zero_spins :
    ∀ (fuel i : ℕ), sendrecvLoop (fun _ => 0) 1 fuel 0 i = none := by
  intro fuel
  induction fuel with
  | zero => intro i; rfl
  | succ n ih =>
    intro i
    have h := ih (i + 1)
    simpa [sendrecvLoop] using h

/-- C2: over a connection closed mid-transfer (every underlying operation
returns 0, the end-of-stream result of `recv`), `sendrecv` asked to move 1
byte never returns, no matter how many loop iterations are allowed — the loop
body adds 0 to `total` and re-issues the call for ever instead of detecting
the closure. -/
theorem claim2_never_returns : ∀ fuel : ℕ, sendrecv (fun _ => 0) 1 fuel = none := by
  intro fuel
  exact sendrecvLoop_zero_spins fuel 0

/-- Invariant proof behind the bounds claim: along any run in which every
issued operation either reports an error or moves a non-negative number of
bytes not exceeding the remaining count, the accumulated total stays between
0 and `len`, so any returned value does too. -/
theorem sendrecvLoop_bounds (ops : ℕ → Int) (len : Int)
    (hops : ∀ i, ops i = -1 ∨ (0 ≤ ops i ∧ opsSum ops (i + 1) ≤ len)) :
    ∀ (fuel : ℕ) (total : Int) (i : ℕ) (t : Int),
      0 ≤ total → total ≤ len → total = opsSum ops i →
      sendrecvLoop ops len fuel total i = some t → 0 ≤ t ∧ t ≤ len := by
  intro fuel
  induction fuel with
  | zero =>
    intro total i t _ _ _ h
    simp [sendrecvLoop] at h
  | succ n ih =>
    intro total i t h0 hle hsum h
    rw [sendrecvLoop] at h
    by_cases hlt : total < len
    · rw [if_pos hlt] at h
      by_cases he : ops i = -1
      · rw [if_pos he] at h
        cases h
        exact ⟨h0, hle⟩
      · rw [if_neg he] at h
        rcases hops i with h1 | ⟨h2, h3⟩
        · exact absurd h1 he
        · have hsum2 : total + ops i = opsSum ops (i + 1) := by
            rw [hsum]; rfl
          exact ih (total + ops i) (i + 1) t (by linarith) (by rw [hsum2]; exact h3) hsum2 h
    · rw [if_neg hlt] at h
      cases h
      exact ⟨h0, hle⟩

/-- C10: whatever the per-operation results, as long as each one is an error
report or moves at most the remaining count, any value `sendrecv` returns for
a requested length `len ≥ 0` lies between 0 and `len` — the primitive never
reports moving more bytes than requested. -/
theorem claim10_bounds (ops : ℕ → Int) (len : Int) (fuel : ℕ) (t : Int)
    (hlen : 0 ≤ len)
    (hops : ∀ i, ops i = -1 ∨ (0 ≤ ops i ∧ opsSum ops (i + 1) ≤ len))
    (h : sendrecv ops len fuel = some t) : 0 ≤ t ∧ t ≤ len :=
  sendrecvLoop_bounds ops len hops fuel 0 0 t le_rfl hlen rfl h

/-- Witness for `claim10_bounds`: requested length 5 over a connection whose
first operation reports an error; the call returns 0 and 0 ≤ 0 ≤ 5. -/
theorem claim10_witness :
    (0 : Int) ≤ 5 ∧
    (∀ i : ℕ, (fun _ : ℕ => (-1 : Int)) i = -1 ∨
      (0 ≤ (fun _ : ℕ => (-1 : Int)) i ∧ opsSum (fun _ : ℕ => (-1 : Int)) (i + 1) ≤ 5)) ∧
    sendrecv (fun _ : ℕ => (-1 : Int)) 5 1 = some 0 ∧
    ((0 : Int) ≤ 0 ∧ (0 : Int) ≤ 5) :=
  ⟨by norm_num, fun _ => Or.inl rfl, by decide,
    claim10_bounds (fun _ : ℕ => (-1 : Int)) 5 1 0 (by norm_num) (fun _ => Or.inl rfl)
      (by decide)⟩

/-! ## File validation -/

/-- C3: the character-validity test of `scanfile` accepts every character —
`c == ' ' || (c >= 'A' || c <= 'Z')` is a tautology — so the scan of any file
content succeeds with its full length and the bad-characters error branch is
unreachable; in particular the lowercase file content "a" is accepted with
length 1 instead of producing a fatal bad-character error. -/
theorem claim3_check_tautology :
    (∀ c : Char, scanfileCheck c = true) ∧
    (∀ cs : List Char, scanfileChars cs = some cs.length) ∧
    scanfileChars ['a'] = some 1 := by
  have hc : ∀ c : Char, scanfileCheck c = true := by
    intro c
    unfold scanfileCheck
    rcases le_total c 'Z' with h | h
    · simp [h]
    · have h2 : 'A' ≤ c := le_trans (by decide) h
      simp [h2]
  have hall : ∀ cs : List Char, scanfileChars cs = some cs.length := by
    intro cs
    induction cs with
    | nil => rfl
    | cons c cs ih => simp [scanfileChars, hc c, ih]
  exact ⟨hc, hall, hall ['a']⟩

/-! ## Admission and sessions -/

/-- C4: whenever the identity token received by the encryption service
differs from "otp_enc", the computed admission result is "FAIL", the child's
session consists of exactly the received token and the sent "FAIL" — no
payload frame is received or sent — and a client that receives this "FAIL"
exits without sending any further frame. -/
theorem claim4_admission (id : String) (h : id ≠ "otp_enc")
    (a b c d e f g x y : String) :
    serverAuth id = "FAIL" ∧
    childFrames id a b c d = [(Dir.received, id), (Dir.sent, "FAIL")] ∧
    clientAfterAuth (serverAuth id) e f g x y = [] := by
  have hf : serverAuth id = "FAIL" := by simp [serverAuth, h]
  refine ⟨hf, ?_, ?_⟩
  · simp [childFrames, hf]
  · simp [clientAfterAuth, hf]

/-- Witness for `claim4_admission`: the decryption client's token "otp_dec"
presented to the encryption service. -/
theorem claim4_witness :
    ("otp_dec" ≠ "otp_enc") ∧
    serverAuth "otp_dec" = "FAIL" ∧
    childFrames "otp_dec" "000000005" "HELLO" "000000007" "WORLDXY" =
      [(Dir.received, "otp_dec"), (Dir.sent, "FAIL")] ∧
    clientAfterAuth (serverAuth "otp_dec") "000000005" "HELLO" "000000007" "WORLDXY" "DTCXS" = [] :=
  ⟨by decide,
    claim4_admission "otp_dec" (by decide) "000000005" "HELLO" "000000007" "WORLDXY"
      "000000005" "HELLO" "000000007" "WORLDXY" "DTCXS"⟩

/-- C9: whenever the scanned key length is strictly below the scanned text
length, the client's run ends at a validation exit (short key, or empty-file
exit when a length is below 1) and neither `socket()` nor `connect()` is ever
reached. -/
theorem claim9_key_short (textLen keyLen : Int) (h : keyLen < textLen) :
    (clientMainActions textLen keyLen).getLastD CAct.session ∈
      [CAct.exitEmptyText, CAct.exitEmptyKey, CAct.exitKeyShort] ∧
    CAct.openedSocket ∉ clientMainActions textLen keyLen ∧
    CAct.connected ∉ clientMainActions textLen keyLen := by
  unfold clientMainActions
  by_cases h1 : textLen < 1
  · simp [h1]
  · have h2 : keyLen < 1 ∨ ¬ keyLen < 1 := em _
    rcases h2 with h2 | h2
    · simp [h1, h2]
    · simp [h1, h2, h]

/-- Witness for `claim9_key_short` at text length 2 and key length 1. -/
theorem claim9_witness :
    ((1 : Int) < 2) ∧
    ((clientMainActions 2 1).getLastD CAct.session ∈
      [CAct.exitEmptyText, CAct.exitEmptyKey, CAct.exitKeyShort] ∧
    CAct.openedSocket ∉ clientMainActions 2 1 ∧
    CAct.connected ∉ clientMainActions 2 1) :=
  ⟨by norm_num, claim9_key_short 2 1 (by norm_num)⟩

/-- C8: in the payload phases of the service child and of the client, every
transfer that moves fewer bytes than requested produces a diagnostic — the
diagnostic appears exactly when some transfer count differs from its
requested count — and execution always continues to the encryption (resp.
printing of the result) and the closing of the connection; no abort event
exists on any path. -/
theorem claim8_partial_continue (textLen keyLen r1 r2 r3 r4 r5 r : Int) :
    Ev.exitAbort ∉ servicePayloadEvents textLen keyLen r1 r2 r3 r4 r5 ∧
    Ev.encrypted ∈ servicePayloadEvents textLen keyLen r1 r2 r3 r4 r5 ∧
    (servicePayloadEvents textLen keyLen r1 r2 r3 r4 r5).getLastD Ev.exitAbort = Ev.closedConn ∧
    (Ev.diag ∈ servicePayloadEvents textLen keyLen r1 r2 r3 r4 r5 ↔
      (r1 ≠ 9 ∨ r2 ≠ textLen ∨ r3 ≠ 9 ∨ r4 ≠ keyLen ∨ r5 ≠ textLen)) ∧
    Ev.exitAbort ∉ clientResultEvents textLen r ∧
    Ev.printedResult ∈ clientResultEvents textLen r ∧
    (clientResultEvents textLen r).getLastD Ev.exitAbort = Ev.closedConn ∧
    (Ev.diag ∈ clientResultEvents textLen r ↔ r ≠ textLen) := by
  refine ⟨?_, ?_, ?_, ?_, ?_, ?_, ?_, ?_⟩ <;>
    simp [servicePayloadEvents, clientResultEvents, callSiteEvents] <;>
    split_ifs <;> simp_all

end OTP
